import Mathlib

/- Verification of the orbit-camera update from
   src/examples/camera/camera_orbit.rs (function `orbit`, embedded over the
   real numbers), and of the build orchestration in
   src/tools/build-wasm-example/src/main.rs (function `main`, embedded as an
   effect trace).

   The engine's quaternion and transform helpers (`Quat::from_euler`,
   `Quat::to_euler`, `Transform::forward`) are engine code that is not under
   src/; they are modelled from the spec (section 4.1, steps 4, 6 and 7):
   intrinsic Y-X-Z Euler decomposition and recomposition, and the forward
   vector obtained by rotating the canonical forward axis (-Z) by the
   orientation quaternion. -/

namespace OrbitCam

structure Vec2 where
  x : ℝ
  y : ℝ

structure Vec3 where
  x : ℝ
  y : ℝ
  z : ℝ

def Vec3.zero : Vec3 := ⟨0, 0, 0⟩

def Vec3.add (a b : Vec3) : Vec3 := ⟨a.x + b.x, a.y + b.y, a.z + b.z⟩

def Vec3.sub (a b : Vec3) : Vec3 := ⟨a.x - b.x, a.y - b.y, a.z - b.z⟩

def Vec3.smul (c : ℝ) (v : Vec3) : Vec3 := ⟨c * v.x, c * v.y, c * v.z⟩

def Vec3.dot (a b : Vec3) : ℝ := a.x * b.x + a.y * b.y + a.z * b.z

def Vec3.cross (a b : Vec3) : Vec3 :=
  ⟨a.y * b.z - a.z * b.y, a.z * b.x - a.x * b.z, a.x * b.y - a.y * b.x⟩

noncomputable def Vec3.norm (v : Vec3) : ℝ := Real.sqrt (v.dot v)

/-- Quaternion with components in the engine's (x, y, z, w) order,
embedded over the real numbers. -/
structure Quat where
  x : ℝ
  y : ℝ
  z : ℝ
  w : ℝ

/-- Hamilton product of two quaternions (the engine's quaternion
multiplication, used by the Y-X-Z recomposition of spec step 6). -/
def Quat.mul (a b : Quat) : Quat :=
  ⟨a.w * b.x + b.w * a.x + (a.y * b.z - a.z * b.y),
   a.w * b.y + b.w * a.y + (a.z * b.x - a.x * b.z),
   a.w * b.z + b.w * a.z + (a.x * b.y - a.y * b.x),
   a.w * b.w - (a.x * b.x + a.y * b.y + a.z * b.z)⟩

def Quat.normSq (q : Quat) : ℝ := q.x ^ 2 + q.y ^ 2 + q.z ^ 2 + q.w ^ 2

noncomputable def Quat.fromRotationX (angle : ℝ) : Quat :=
  ⟨Real.sin (angle / 2), 0, 0, Real.cos (angle / 2)⟩

noncomputable def Quat.fromRotationY (angle : ℝ) : Quat :=
  ⟨0, Real.sin (angle / 2), 0, Real.cos (angle / 2)⟩

noncomputable def Quat.fromRotationZ (angle : ℝ) : Quat :=
  ⟨0, 0, Real.sin (angle / 2), Real.cos (angle / 2)⟩

/-- Modelled from the spec: step 6 — recompose
`orientation = Quaternion.from_euler(order = Y-X-Z, yaw, pitch, roll)`, the
intrinsic Y-X-Z composition: rotation about world Y by yaw, then about local
X by pitch, then about local Z by roll.  (`Quat::from_euler(EulerRot::YXZ, ..)`
is engine code not under src/.) -/
noncomputable def Quat.fromEulerYXZ (yaw pitch roll : ℝ) : Quat :=
  ((Quat.fromRotationY yaw).mul (Quat.fromRotationX pitch)).mul (Quat.fromRotationZ roll)

/-- Two-argument arctangent with range (-π, π], realised as the complex
argument of x + y·i.  Used by the Euler decomposition model. -/
noncomputable def atan2 (y x : ℝ) : ℝ := Complex.arg (x + y * Complex.I)

/-- Modelled from the spec: step 4 — decompose an orientation quaternion into
`(yaw, pitch, roll)` in intrinsic Y-X-Z order (yaw about world up, then pitch
about local right, then roll about local forward).  The angles are read off
the Y-X-Z rotation-matrix entries of the quaternion: pitch is the arcsine of
the pitch-sine entry, yaw and roll are arctangents of the corresponding
entry pairs.  (`Quat::to_euler(EulerRot::YXZ)` is engine code not under
src/.) -/
noncomputable def Quat.toEulerYXZ (q : Quat) : ℝ × ℝ × ℝ :=
  (atan2 (2 * (q.x * q.z + q.w * q.y)) (q.w ^ 2 - q.x ^ 2 - q.y ^ 2 + q.z ^ 2),
   Real.arcsin (2 * (q.w * q.x - q.y * q.z)),
   atan2 (2 * (q.x * q.y + q.w * q.z)) (q.w ^ 2 - q.x ^ 2 + q.y ^ 2 - q.z ^ 2))

/-- Rotation of a vector by a quaternion (the engine's `mul_vec3` sandwich
product, expanded):
`v * (w² - |b|²) + b * (2 v·b) + (b × v) * 2w` with `b` the vector part. -/
def Quat.mulVec3 (q : Quat) (v : Vec3) : Vec3 :=
  let b : Vec3 := ⟨q.x, q.y, q.z⟩
  ((Vec3.smul (q.w ^ 2 - b.dot b) v).add (Vec3.smul (2 * v.dot b) b)).add
    (Vec3.smul (2 * q.w) (b.cross v))

/-- Modelled from the spec: step 7 — `forward(q)` is the unit vector obtained
by rotating the canonical forward axis by `q`; the engine's canonical forward
axis is -Z (`Transform::forward()` is engine code not under src/). -/
def forward (q : Quat) : Vec3 := q.mulVec3 ⟨0, 0, -1⟩

/-- Rust's `f32::clamp(self, lo, hi)` on its non-panicking domain:
`if self < min { min } else if self > max { max } else { self }`. -/
noncomputable def rustClamp (x lo hi : ℝ) : ℝ :=
  if x < lo then lo else if hi < x then hi else x

/-- Rust's `f32::clamp` including its fallible path: it panics (here: `none`)
unless `min <= max`.  (Over the reals there are no NaN bounds, so the panic
condition reduces to `min > max`.) -/
noncomputable def clampChecked (x lo hi : ℝ) : Option ℝ :=
  if lo ≤ hi then some (rustClamp x lo hi) else none

/-- Rust's `Range<f32>` as used by `CameraSettings.pitch_range`. -/
structure RangeF where
  start : ℝ
  «end» : ℝ

structure CameraSettings where
  orbit_distance : ℝ
  pitch_speed : ℝ
  pitch_range : RangeF
  roll_speed : ℝ
  yaw_speed : ℝ

/-- Per-tick input snapshot read by `orbit`: `mouse_motion.delta`,
`mouse_buttons.pressed(MouseButton::Left / Right)`, `time.delta_seconds()`. -/
structure FrameInput where
  delta : Vec2
  left_pressed : Bool
  right_pressed : Bool
  elapsed_seconds : ℝ

structure Transform where
  translation : Vec3
  rotation : Quat

/-- Lines 132-139 of camera_orbit.rs: the roll direction accumulator,
`-1` for the left trigger, `+1` for the right trigger. -/
def deltaRollDirection (input : FrameInput) : ℝ :=
  let d0 : ℝ := 0
  let d1 := if input.left_pressed then d0 - 1 else d0
  if input.right_pressed then d1 + 1 else d1

/-- Line 164 of camera_orbit.rs: `let target = Vec3::ZERO;`. -/
def target : Vec3 := Vec3.zero

/-- The body of `orbit` (camera_orbit.rs lines 130-165), as a pure function
from the borrowed transform, the settings and the frame input to the written
transform. -/
noncomputable def orbit (transform : Transform) (camera_settings : CameraSettings)
    (input : FrameInput) : Transform :=
  let delta := input.delta
  let delta_pitch := delta.y * camera_settings.pitch_speed
  let delta_yaw := delta.x * camera_settings.yaw_speed
  let delta_roll := deltaRollDirection input * (camera_settings.roll_speed * input.elapsed_seconds)
  let ypr := transform.rotation.toEulerYXZ
  let pitch := rustClamp (ypr.2.1 + delta_pitch)
    camera_settings.pitch_range.start camera_settings.pitch_range.«end»
  let roll := ypr.2.2 + delta_roll
  let yaw := ypr.1 + delta_yaw
  let rotation := Quat.fromEulerYXZ yaw pitch roll
  ⟨target.sub (Vec3.smul camera_settings.orbit_distance (forward rotation)), rotation⟩

/-- `orbit` with the fallible path of the pitch clamp kept explicit:
`none` models the panic of `f32::clamp` when `pitch_range.start >
pitch_range.end`. -/
noncomputable def orbitChecked (transform : Transform) (camera_settings : CameraSettings)
    (input : FrameInput) : Option Transform :=
  let delta := input.delta
  let delta_pitch := delta.y * camera_settings.pitch_speed
  let delta_yaw := delta.x * camera_settings.yaw_speed
  let delta_roll := deltaRollDirection input * (camera_settings.roll_speed * input.elapsed_seconds)
  let ypr := transform.rotation.toEulerYXZ
  match clampChecked (ypr.2.1 + delta_pitch)
      camera_settings.pitch_range.start camera_settings.pitch_range.«end» with
  | none => none
  | some pitch =>
    let roll := ypr.2.2 + delta_roll
    let yaw := ypr.1 + delta_yaw
    let rotation := Quat.fromEulerYXZ yaw pitch roll
    some ⟨target.sub (Vec3.smul camera_settings.orbit_distance (forward rotation)), rotation⟩

/-- Line 148 of camera_orbit.rs: `delta_roll *= camera_settings.roll_speed *
time.delta_seconds()`, applied to the direction selector of lines 132-139. -/
noncomputable def delta_roll (camera_settings : CameraSettings) (input : FrameInput) : ℝ :=
  deltaRollDirection input * (camera_settings.roll_speed * input.elapsed_seconds)

/-- The yaw angle recomposed by `orbit` (lines 151, 159): decomposed yaw plus
`delta.x * yaw_speed`. -/
noncomputable def newYaw (transform : Transform) (camera_settings : CameraSettings)
    (input : FrameInput) : ℝ :=
  transform.rotation.toEulerYXZ.1 + input.delta.x * camera_settings.yaw_speed

/-- The pitch angle recomposed by `orbit` (lines 151, 154-157): decomposed
pitch plus `delta.y * pitch_speed`, clamped to the pitch range. -/
noncomputable def newPitch (transform : Transform) (camera_settings : CameraSettings)
    (input : FrameInput) : ℝ :=
  rustClamp (transform.rotation.toEulerYXZ.2.1 + input.delta.y * camera_settings.pitch_speed)
    camera_settings.pitch_range.start camera_settings.pitch_range.«end»

/-- The roll angle recomposed by `orbit` (lines 151, 158): decomposed roll
plus the time-scaled roll delta. -/
noncomputable def newRoll (transform : Transform) (camera_settings : CameraSettings)
    (input : FrameInput) : ℝ :=
  transform.rotation.toEulerYXZ.2.2 + delta_roll camera_settings input

/-- The orientation written by `orbit` (line 160). -/
noncomputable def newRotation (transform : Transform) (camera_settings : CameraSettings)
    (input : FrameInput) : Quat :=
  Quat.fromEulerYXZ (newYaw transform camera_settings input)
    (newPitch transform camera_settings input) (newRoll transform camera_settings input)

/-- The default camera settings of the example restricted to the concrete
scenario of the spec: `orbit_distance = 20`, `pitch_speed = 0.003`,
`pitch_range = (-1.5608, 1.5608)`, `roll_speed = 1`, `yaw_speed = 0.004`. -/
noncomputable def cs0 : CameraSettings := ⟨20, 0.003, ⟨-1.5608, 1.5608⟩, 1, 0.004⟩

/-- A concrete starting pose: identity orientation, positioned at the
target. -/
def tf0 : Transform := ⟨⟨0, 0, 0⟩, ⟨0, 0, 0, 1⟩⟩

/-- The zero frame input: no pointer motion, no roll trigger, zero elapsed
time. -/
def input0 : FrameInput := ⟨⟨0, 0⟩, false, false, 0⟩

/-- The frame input of the spec's concrete scenario: `dx = 100, dy = 0`, no
roll trigger, `elapsed = 0.016`. -/
noncomputable def input4 : FrameInput := ⟨⟨100, 0⟩, false, false, 0.016⟩

/- The wasm-example build tool (src/tools/build-wasm-example/src/main.rs),
modelled as the sequence of external effects `main` performs. -/

inductive WebApi where
  | webgl2
  | webgpu
  deriving DecidableEq

/-- The parsed CLI arguments of the build tool (struct `Args`). -/
structure Args where
  examples : List String
  test : Bool
  browsers : List String
  frames : Option Nat
  api : WebApi
  optimize_size : Bool
  features : List String
  debug : Bool

/-- An observable external effect of the build tool. -/
inductive Effect where
  | writeFile (name content : String)
  | cargoBuild (ex : String)
  | wasmBindgen (ex : String)
  | wasmOpt (ex : String)
  | playwright (ex : String)
  deriving DecidableEq

/-- Lines 56-58 of main.rs: the content written to ci_testing_config.ron,
`format_args!("(events: [({frames}, AppExit)])")`. -/
def ciTestingContent (frames : Nat) : String :=
  "(events: [(" ++ toString frames ++ ", AppExit)])"

/-- Lines 55-60 of main.rs: the file writes performed before the build loop;
one write of ci_testing_config.ron when `--frames` was given, none
otherwise. -/
def preBuildWrites (a : Args) : List Effect :=
  match a.frames with
  | some n => [Effect.writeFile "ci_testing_config.ron" (ciTestingContent n)]
  | none => []

/-- Lines 54-60 of main.rs: the feature list after the `--frames` handling:
"bevy_ci_testing" is appended exactly when `--frames` was given. -/
def ciFeatures (a : Args) : List String :=
  match a.frames with
  | some _ => a.features ++ ["bevy_ci_testing"]
  | none => a.features

/-- Lines 62-67 of main.rs: the feature list after the `--api` handling. -/
def finalFeatures (a : Args) : List String :=
  match a.api with
  | WebApi.webgpu => ciFeatures a ++ ["webgpu"]
  | WebApi.webgl2 => ciFeatures a

/-- Lines 69-117 of main.rs: the effects of one iteration of the build
loop for one example. -/
def exampleEffects (a : Args) (ex : String) : List Effect :=
  [Effect.cargoBuild ex, Effect.wasmBindgen ex]
    ++ (if a.optimize_size then [Effect.wasmOpt ex] else [])
    ++ (if a.test then [Effect.playwright ex] else [])

/-- The effect trace of `main` (lines 48-118): `none` models the panic of the
`assert!(!cli.examples.is_empty(), ..)` on line 51, which aborts the run
before any file is written; otherwise the pre-build writes followed by the
per-example build effects, in program order. -/
def mainTrace (a : Args) : Option (List Effect) :=
  if a.examples.isEmpty then none
  else some (preBuildWrites a ++ a.examples.flatMap (exampleEffects a))

/-- A concrete valid invocation: one example, `--frames 3`. -/
def argsW : Args := ⟨["lighting"], false, [], some 3, WebApi.webgl2, false, [], false⟩

/-- A concrete invocation with `--frames 5` but no examples: the assertion on
line 51 fires before the ci config file is written. -/
def args0 : Args := ⟨[], false, [], some 5, WebApi.webgl2, false, [], false⟩

/- ------------------------------------------------------------------ -/
/- Theorems.                                                           -/
/- ------------------------------------------------------------------ -/

theorem Quat.normSq_mul (a b : Quat) : (a.mul b).normSq = a.normSq * b.normSq := by
  simp only [Quat.mul, Quat.normSq]
  ring

theorem Quat.normSq_fromRotationX (angle : ℝ) : (Quat.fromRotationX angle).normSq = 1 := by
  simp only [Quat.fromRotationX, Quat.normSq]
  nlinarith [Real.sin_sq_add_cos_sq (angle / 2)]

theorem Quat.normSq_fromRotationY (angle : ℝ) : (Quat.fromRotationY angle).normSq = 1 := by
  simp only [Quat.fromRotationY, Quat.normSq]
  nlinarith [Real.sin_sq_add_cos_sq (angle / 2)]

theorem Quat.normSq_fromRotationZ (angle : ℝ) : (Quat.fromRotationZ angle).normSq = 1 := by
  simp only [Quat.fromRotationZ, Quat.normSq]
  nlinarith [Real.sin_sq_add_cos_sq (angle / 2)]

theorem Quat.normSq_fromEulerYXZ (yaw pitch roll : ℝ) :
    (Quat.fromEulerYXZ yaw pitch roll).normSq = 1 := by
  simp only [Quat.fromEulerYXZ, Quat.normSq_mul, Quat.normSq_fromRotationX,
    Quat.normSq_fromRotationY, Quat.normSq_fromRotationZ]
  ring

theorem Quat.dot_mulVec3 (q : Quat) (v : Vec3) :
    (q.mulVec3 v).dot (q.mulVec3 v) = q.normSq ^ 2 * v.dot v := by
  simp only [Quat.mulVec3, Quat.normSq, Vec3.dot, Vec3.cross, Vec3.add, Vec3.smul]
  ring

theorem forward_dot (q : Quat) (h : q.normSq = 1) : (forward q).dot (forward q) = 1 := by
  rw [forward, Quat.dot_mulVec3, h]
  simp only [Vec3.dot]
  norm_num

theorem sin_eq_double (p : ℝ) : Real.sin p = 2 * Real.sin (p / 2) * Real.cos (p / 2) := by
  have hp := Real.sin_two_mul (p / 2)
  have h2 : (2:ℝ) * (p / 2) = p := by ring
  rw [h2] at hp
  exact hp

theorem cos_eq_double (p : ℝ) : Real.cos p = Real.cos (p / 2) ^ 2 - Real.sin (p / 2) ^ 2 := by
  have hp := Real.cos_two_mul (p / 2)
  have h2 : (2:ℝ) * (p / 2) = p := by ring
  rw [h2] at hp
  have hs := Real.sin_sq_add_cos_sq (p / 2)
  linarith

theorem fromEulerYXZ_sineTheta (y p r : ℝ) :
    2 * ((Quat.fromEulerYXZ y p r).w * (Quat.fromEulerYXZ y p r).x -
      (Quat.fromEulerYXZ y p r).y * (Quat.fromEulerYXZ y p r).z) = Real.sin p := by
  have hy := Real.sin_sq_add_cos_sq (y / 2)
  have hr := Real.sin_sq_add_cos_sq (r / 2)
  simp only [Quat.fromEulerYXZ, Quat.mul, Quat.fromRotationX, Quat.fromRotationY,
    Quat.fromRotationZ]
  rw [sin_eq_double p]
  linear_combination (2 * Real.sin (p / 2) * Real.cos (p / 2) *
      (Real.sin (r / 2) ^ 2 + Real.cos (r / 2) ^ 2)) * hy +
    (2 * Real.sin (p / 2) * Real.cos (p / 2)) * hr

theorem fromEulerYXZ_yawNum (y p r : ℝ) :
    2 * ((Quat.fromEulerYXZ y p r).x * (Quat.fromEulerYXZ y p r).z +
      (Quat.fromEulerYXZ y p r).w * (Quat.fromEulerYXZ y p r).y) = Real.sin y * Real.cos p := by
  have hr := Real.sin_sq_add_cos_sq (r / 2)
  simp only [Quat.fromEulerYXZ, Quat.mul, Quat.fromRotationX, Quat.fromRotationY,
    Quat.fromRotationZ]
  rw [sin_eq_double y, cos_eq_double p]
  linear_combination (2 * Real.sin (y / 2) * Real.cos (y / 2) *
      (Real.cos (p / 2) ^ 2 - Real.sin (p / 2) ^ 2)) * hr

theorem fromEulerYXZ_yawDen (y p r : ℝ) :
    (Quat.fromEulerYXZ y p r).w ^ 2 - (Quat.fromEulerYXZ y p r).x ^ 2 -
      (Quat.fromEulerYXZ y p r).y ^ 2 + (Quat.fromEulerYXZ y p r).z ^ 2 =
    Real.cos y * Real.cos p := by
  have hr := Real.sin_sq_add_cos_sq (r / 2)
  simp only [Quat.fromEulerYXZ, Quat.mul, Quat.fromRotationX, Quat.fromRotationY,
    Quat.fromRotationZ]
  rw [cos_eq_double y, cos_eq_double p]
  linear_combination ((Real.cos (y / 2) ^ 2 - Real.sin (y / 2) ^ 2) *
      (Real.cos (p / 2) ^ 2 - Real.sin (p / 2) ^ 2)) * hr

theorem fromEulerYXZ_rollNum (y p r : ℝ) :
    2 * ((Quat.fromEulerYXZ y p r).x * (Quat.fromEulerYXZ y p r).y +
      (Quat.fromEulerYXZ y p r).w * (Quat.fromEulerYXZ y p r).z) = Real.sin r * Real.cos p := by
  have hy := Real.sin_sq_add_cos_sq (y / 2)
  simp only [Quat.fromEulerYXZ, Quat.mul, Quat.fromRotationX, Quat.fromRotationY,
    Quat.fromRotationZ]
  rw [sin_eq_double r, cos_eq_double p]
  linear_combination (2 * Real.sin (r / 2) * Real.cos (r / 2) *
      (Real.cos (p / 2) ^ 2 - Real.sin (p / 2) ^ 2)) * hy

theorem fromEulerYXZ_rollDen (y p r : ℝ) :
    (Quat.fromEulerYXZ y p r).w ^ 2 - (Quat.fromEulerYXZ y p r).x ^ 2 +
      (Quat.fromEulerYXZ y p r).y ^ 2 - (Quat.fromEulerYXZ y p r).z ^ 2 =
    Real.cos r * Real.cos p := by
  have hy := Real.sin_sq_add_cos_sq (y / 2)
  simp only [Quat.fromEulerYXZ, Quat.mul, Quat.fromRotationX, Quat.fromRotationY,
    Quat.fromRotationZ]
  rw [cos_eq_double r, cos_eq_double p]
  linear_combination ((Real.cos (r / 2) ^ 2 - Real.sin (r / 2) ^ 2) *
      (Real.cos (p / 2) ^ 2 - Real.sin (p / 2) ^ 2)) * hy

theorem atan2_sin_cos_mul (θ c : ℝ) (hc : 0 < c) (hθ : θ ∈ Set.Ioc (-Real.pi) Real.pi) :
    atan2 (Real.sin θ * c) (Real.cos θ * c) = θ := by
  unfold atan2
  have h : (Complex.ofReal (Real.cos θ * c) + Complex.ofReal (Real.sin θ * c) * Complex.I) =
      Complex.ofReal c *
        (Complex.ofReal (Real.cos θ) + Complex.ofReal (Real.sin θ) * Complex.I) := by
    push_cast
    ring
  rw [h, Complex.arg_real_mul _ hc, Complex.ofReal_cos, Complex.ofReal_sin]
  exact Complex.arg_cos_add_sin_mul_I hθ

theorem toEulerYXZ_fromEulerYXZ_pitch (y p r : ℝ) (h1 : -(Real.pi / 2) ≤ p)
    (h2 : p ≤ Real.pi / 2) : (Quat.fromEulerYXZ y p r).toEulerYXZ.2.1 = p := by
  simp only [Quat.toEulerYXZ]
  rw [fromEulerYXZ_sineTheta]
  exact Real.arcsin_sin h1 h2

theorem toEulerYXZ_fromEulerYXZ_yaw (y p r : ℝ) (hy : y ∈ Set.Ioc (-Real.pi) Real.pi)
    (hp : p ∈ Set.Ioo (-(Real.pi / 2)) (Real.pi / 2)) :
    (Quat.fromEulerYXZ y p r).toEulerYXZ.1 = y := by
  simp only [Quat.toEulerYXZ]
  rw [fromEulerYXZ_yawNum, fromEulerYXZ_yawDen]
  exact atan2_sin_cos_mul y (Real.cos p) (Real.cos_pos_of_mem_Ioo hp) hy

theorem toEulerYXZ_fromEulerYXZ_roll (y p r : ℝ) (hr : r ∈ Set.Ioc (-Real.pi) Real.pi)
    (hp : p ∈ Set.Ioo (-(Real.pi / 2)) (Real.pi / 2)) :
    (Quat.fromEulerYXZ y p r).toEulerYXZ.2.2 = r := by
  simp only [Quat.toEulerYXZ]
  rw [fromEulerYXZ_rollNum, fromEulerYXZ_rollDen]
  exact atan2_sin_cos_mul r (Real.cos p) (Real.cos_pos_of_mem_Ioo hp) hr

theorem toEulerYXZ_fromEulerYXZ (y p r : ℝ) (hy : y ∈ Set.Ioc (-Real.pi) Real.pi)
    (hr : r ∈ Set.Ioc (-Real.pi) Real.pi)
    (hp : p ∈ Set.Ioo (-(Real.pi / 2)) (Real.pi / 2)) :
    (Quat.fromEulerYXZ y p r).toEulerYXZ = (y, p, r) := by
  have h1 := toEulerYXZ_fromEulerYXZ_yaw y p r hy hp
  have h2 := toEulerYXZ_fromEulerYXZ_pitch y p r hp.1.le hp.2.le
  have h3 := toEulerYXZ_fromEulerYXZ_roll y p r hr hp
  exact Prod.ext h1 (Prod.ext h2 h3)

theorem rustClamp_mem (x lo hi : ℝ) (h : lo ≤ hi) :
    lo ≤ rustClamp x lo hi ∧ rustClamp x lo hi ≤ hi := by
  unfold rustClamp
  split_ifs with h1 h2 <;> constructor <;> linarith

theorem rustClamp_of_mem (x lo hi : ℝ) (h1 : lo ≤ x) (h2 : x ≤ hi) : rustClamp x lo hi = x := by
  unfold rustClamp
  split_ifs <;> linarith

theorem rustClamp_of_gt (x lo hi : ℝ) (h : lo ≤ hi) (h2 : hi < x) : rustClamp x lo hi = hi := by
  unfold rustClamp
  split_ifs <;> linarith

theorem rustClamp_of_lt (x lo hi : ℝ) (h2 : x < lo) : rustClamp x lo hi = lo := by
  unfold rustClamp
  split_ifs <;> linarith

/-- `orbit` written through the named per-angle helpers. -/
theorem orbit_eq (transform : Transform) (camera_settings : CameraSettings)
    (input : FrameInput) :
    orbit transform camera_settings input =
      ⟨target.sub (Vec3.smul camera_settings.orbit_distance
          (forward (newRotation transform camera_settings input))),
        newRotation transform camera_settings input⟩ := rfl

theorem norm_sub_target (d : ℝ) (hd : 0 ≤ d) (f : Vec3) (hf : f.dot f = 1) :
    ((target.sub (Vec3.smul d f)).sub target).norm = d := by
  simp only [target, Vec3.zero, Vec3.sub, Vec3.smul, Vec3.norm, Vec3.dot] at *
  have h : (0 - d * f.x - 0) * (0 - d * f.x - 0) + (0 - d * f.y - 0) * (0 - d * f.y - 0) +
      (0 - d * f.z - 0) * (0 - d * f.z - 0) = d ^ 2 := by
    linear_combination d ^ 2 * hf
  rw [h]
  exact Real.sqrt_sq hd

theorem toEulerYXZ_identity : Quat.toEulerYXZ ⟨0, 0, 0, 1⟩ = (0, 0, 0) := by
  simp only [Quat.toEulerYXZ, atan2]
  norm_num [Real.arcsin_zero, Complex.arg_one]

theorem fromEulerYXZ_zero : Quat.fromEulerYXZ 0 0 0 = ⟨0, 0, 0, 1⟩ := by
  simp only [Quat.fromEulerYXZ, Quat.fromRotationX, Quat.fromRotationY, Quat.fromRotationZ,
    Quat.mul]
  norm_num

theorem forward_identity : forward ⟨0, 0, 0, 1⟩ = ⟨0, 0, -1⟩ := by
  simp only [forward, Quat.mulVec3, Vec3.dot, Vec3.cross, Vec3.add, Vec3.smul]
  norm_num

theorem normSq_newRotation (tf : Transform) (cs : CameraSettings) (input : FrameInput) :
    (newRotation tf cs input).normSq = 1 := by
  rw [newRotation]
  exact Quat.normSq_fromEulerYXZ _ _ _

/-- C9: `orbit` never reads the previous position: two poses with the same
orientation but different positions are mapped to identical output poses, so
the new orientation and position depend only on the previous orientation, the
input, the settings and the target. -/
theorem orbit_position_not_read (p1 p2 : Vec3) (q : Quat) (cs : CameraSettings)
    (input : FrameInput) : orbit ⟨p1, q⟩ cs input = orbit ⟨p2, q⟩ cs input := rfl

/-- C6: calling `orbit` with both roll triggers held returns exactly the same
pose as calling it with neither held, all other inputs equal: the net roll
delta for the tick is 0. -/
theorem orbit_roll_cancellation (tf : Transform) (cs : CameraSettings) (d : Vec2) (t : ℝ) :
    orbit tf cs ⟨d, true, true, t⟩ = orbit tf cs ⟨d, false, false, t⟩ := by
  have h1 : deltaRollDirection ⟨d, true, true, t⟩ = 0 := by
    norm_num [deltaRollDirection]
  have h2 : deltaRollDirection ⟨d, false, false, t⟩ = 0 := by
    norm_num [deltaRollDirection]
  have hroll : newRoll tf cs ⟨d, true, true, t⟩ = newRoll tf cs ⟨d, false, false, t⟩ := by
    simp only [newRoll, delta_roll, h1, h2]
  have hR : newRotation tf cs ⟨d, true, true, t⟩ = newRotation tf cs ⟨d, false, false, t⟩ := by
    simp only [newRotation]
    rw [hroll]
    rfl
  rw [orbit_eq, orbit_eq, hR]

/-- C7: the pointer-motion deltas are never multiplied by elapsed time: two
calls with identical `dx, dy`, no roll trigger, and different
`elapsed_seconds` produce identical poses, in particular identical resulting
pitch and yaw. -/
theorem orbit_pointer_delta_time_independence (tf : Transform) (cs : CameraSettings)
    (d : Vec2) (t1 t2 : ℝ) :
    orbit tf cs ⟨d, false, false, t1⟩ = orbit tf cs ⟨d, false, false, t2⟩ ∧
    (orbit tf cs ⟨d, false, false, t1⟩).rotation.toEulerYXZ.2.1 =
      (orbit tf cs ⟨d, false, false, t2⟩).rotation.toEulerYXZ.2.1 ∧
    (orbit tf cs ⟨d, false, false, t1⟩).rotation.toEulerYXZ.1 =
      (orbit tf cs ⟨d, false, false, t2⟩).rotation.toEulerYXZ.1 := by
  have hroll : newRoll tf cs ⟨d, false, false, t1⟩ = newRoll tf cs ⟨d, false, false, t2⟩ := by
    norm_num [newRoll, delta_roll, deltaRollDirection]
  have hR : newRotation tf cs ⟨d, false, false, t1⟩ =
      newRotation tf cs ⟨d, false, false, t2⟩ := by
    simp only [newRotation]
    rw [hroll]
    rfl
  have h : orbit tf cs ⟨d, false, false, t1⟩ = orbit tf cs ⟨d, false, false, t2⟩ := by
    rw [orbit_eq, orbit_eq, hR]
  exact ⟨h, by rw [h], by rw [h]⟩

/-- C8: under the preconditions `orbit_distance > 0` and
`pitch_range.start < pitch_range.end`, `orbit` is total: the fallible path of
the pitch clamp (the panic of `f32::clamp`, reached only when `min > max`
over the reals) is unreachable, and the checked update returns the pose. -/
theorem orbitChecked_total (tf : Transform) (cs : CameraSettings) (input : FrameInput)
    (hd : 0 < cs.orbit_distance)
    (h : cs.pitch_range.start < cs.pitch_range.«end») :
    orbitChecked tf cs input = some (orbit tf cs input) := by
  unfold orbitChecked
  have hc : clampChecked (tf.rotation.toEulerYXZ.2.1 + input.delta.y * cs.pitch_speed)
      cs.pitch_range.start cs.pitch_range.«end» =
      some (rustClamp (tf.rotation.toEulerYXZ.2.1 + input.delta.y * cs.pitch_speed)
        cs.pitch_range.start cs.pitch_range.«end») := by
    rw [clampChecked, if_pos h.le]
  simp only [hc]
  rfl

/-- Witness for C8 at the concrete example settings. -/
theorem orbitChecked_total_witness :
    0 < cs0.orbit_distance ∧ cs0.pitch_range.start < cs0.pitch_range.«end» ∧
    orbitChecked tf0 cs0 input0 = some (orbit tf0 cs0 input0) :=
  ⟨by norm_num [cs0], by norm_num [cs0],
   orbitChecked_total tf0 cs0 input0 (by norm_num [cs0]) (by norm_num [cs0])⟩

/-- C5: the angle added to the decomposed roll is exactly
`delta_roll_direction * roll_speed * elapsed_seconds`, with the direction
-1 / +1 / 0 according to the held triggers; doubling `elapsed_seconds`
doubles the roll delta, and `elapsed_seconds = 0` makes the roll delta
exactly 0 while the pitch and yaw deltas are unaffected. -/
theorem orbit_roll_delta_time_scaling (tf : Transform) (cs : CameraSettings)
    (input : FrameInput) :
    ((orbit tf cs input).rotation =
      Quat.fromEulerYXZ (newYaw tf cs input) (newPitch tf cs input)
        (tf.rotation.toEulerYXZ.2.2 +
          deltaRollDirection input * (cs.roll_speed * input.elapsed_seconds))) ∧
    (input.left_pressed = true → input.right_pressed = false →
      deltaRollDirection input = -1) ∧
    (input.left_pressed = false → input.right_pressed = true →
      deltaRollDirection input = 1) ∧
    (input.left_pressed = input.right_pressed → deltaRollDirection input = 0) ∧
    (∀ t : ℝ,
      delta_roll cs ⟨input.delta, input.left_pressed, input.right_pressed, 2 * t⟩ =
        2 * delta_roll cs ⟨input.delta, input.left_pressed, input.right_pressed, t⟩) ∧
    delta_roll cs ⟨input.delta, input.left_pressed, input.right_pressed, 0⟩ = 0 ∧
    (∀ t1 t2 : ℝ,
      newYaw tf cs ⟨input.delta, input.left_pressed, input.right_pressed, t1⟩ =
        newYaw tf cs ⟨input.delta, input.left_pressed, input.right_pressed, t2⟩ ∧
      newPitch tf cs ⟨input.delta, input.left_pressed, input.right_pressed, t1⟩ =
        newPitch tf cs ⟨input.delta, input.left_pressed, input.right_pressed, t2⟩) := by
  refine ⟨rfl, ?_, ?_, ?_, ?_, ?_, ?_⟩
  · intro hl hr
    simp [deltaRollDirection, hl, hr]
  · intro hl hr
    simp [deltaRollDirection, hl, hr]
  · intro hlr
    cases hb : input.right_pressed <;> simp [deltaRollDirection, hlr, hb]
  · intro t
    simp only [delta_roll, deltaRollDirection]
    ring
  · simp only [delta_roll, deltaRollDirection]
    ring
  · intro t1 t2
    exact ⟨rfl, rfl⟩

/-- Witness for C5: at concrete inputs the direction selector is -1 with only
the left trigger held and 0 with neither held. -/
theorem orbit_roll_delta_time_scaling_witness :
    deltaRollDirection ⟨⟨3, 4⟩, true, false, 2⟩ = -1 ∧
    deltaRollDirection ⟨⟨3, 4⟩, false, false, 2⟩ = 0 :=
  ⟨(orbit_roll_delta_time_scaling tf0 cs0 ⟨⟨3, 4⟩, true, false, 2⟩).2.1 rfl rfl,
   (orbit_roll_delta_time_scaling tf0 cs0 ⟨⟨3, 4⟩, false, false, 2⟩).2.2.2.1 rfl⟩

/-- C1: for every pose, frame input and settings with `orbit_distance > 0`,
the returned pose satisfies
`position = target - forward(orientation) * orbit_distance`, and consequently
the distance from the returned position to the target is exactly
`orbit_distance` (so the forward vector of the new orientation points from
the new position toward the target). -/
theorem orbit_distance_facing_invariant (tf : Transform) (cs : CameraSettings)
    (input : FrameInput) (hd : 0 < cs.orbit_distance) :
    (orbit tf cs input).translation =
      target.sub (Vec3.smul cs.orbit_distance (forward (orbit tf cs input).rotation)) ∧
    ((orbit tf cs input).translation.sub target).norm = cs.orbit_distance := by
  constructor
  · rw [orbit_eq]
  · rw [orbit_eq]
    exact norm_sub_target cs.orbit_distance hd.le _
      (forward_dot _ (normSq_newRotation tf cs input))

/-- Witness for C1 at the concrete example settings. -/
theorem orbit_distance_facing_invariant_witness :
    0 < cs0.orbit_distance ∧
    ((orbit tf0 cs0 input0).translation =
      target.sub (Vec3.smul cs0.orbit_distance (forward (orbit tf0 cs0 input0).rotation)) ∧
    ((orbit tf0 cs0 input0).translation.sub target).norm = cs0.orbit_distance) :=
  ⟨by norm_num [cs0], orbit_distance_facing_invariant tf0 cs0 input0 (by norm_num [cs0])⟩

theorem pitch_of_orbit (tf : Transform) (cs : CameraSettings) (input : FrameInput)
    (hlo : -(Real.pi / 2) ≤ cs.pitch_range.start)
    (hhi : cs.pitch_range.«end» ≤ Real.pi / 2)
    (hle : cs.pitch_range.start ≤ cs.pitch_range.«end») :
    (orbit tf cs input).rotation.toEulerYXZ.2.1 = newPitch tf cs input := by
  rw [orbit_eq]
  show (newRotation tf cs input).toEulerYXZ.2.1 = _
  rw [newRotation]
  have hb := rustClamp_mem (tf.rotation.toEulerYXZ.2.1 + input.delta.y * cs.pitch_speed)
    cs.pitch_range.start cs.pitch_range.«end» hle
  refine toEulerYXZ_fromEulerYXZ_pitch _ _ _ ?_ ?_
  · rw [newPitch]
    linarith [hb.1]
  · rw [newPitch]
    linarith [hb.2]

/-- C2: with `pitch_range.start < pitch_range.end` and both bounds strictly
inside (-π/2, π/2), after every call of `orbit` in any sequence of calls the
pitch extracted from the resulting orientation by Y-X-Z decomposition lies in
`[pitch_range.start, pitch_range.end]`; an input that would push the pitch
past a limit yields pitch exactly at that limit. -/
theorem orbit_pitch_clamp_invariant (cs : CameraSettings)
    (hlo : -(Real.pi / 2) < cs.pitch_range.start)
    (hhi : cs.pitch_range.«end» < Real.pi / 2)
    (hlt : cs.pitch_range.start < cs.pitch_range.«end»)
    (tf : Transform) (inputs : List FrameInput) (input : FrameInput) :
    (cs.pitch_range.start ≤
        (orbit (inputs.foldl (fun t i => orbit t cs i) tf) cs input).rotation.toEulerYXZ.2.1 ∧
      (orbit (inputs.foldl (fun t i => orbit t cs i) tf) cs input).rotation.toEulerYXZ.2.1 ≤
        cs.pitch_range.«end») ∧
    (cs.pitch_range.«end» < tf.rotation.toEulerYXZ.2.1 + input.delta.y * cs.pitch_speed →
      (orbit tf cs input).rotation.toEulerYXZ.2.1 = cs.pitch_range.«end») ∧
    (tf.rotation.toEulerYXZ.2.1 + input.delta.y * cs.pitch_speed < cs.pitch_range.start →
      (orbit tf cs input).rotation.toEulerYXZ.2.1 = cs.pitch_range.start) := by
  refine ⟨?_, ?_, ?_⟩
  · rw [pitch_of_orbit _ _ _ hlo.le hhi.le hlt.le, newPitch]
    exact rustClamp_mem _ _ _ hlt.le
  · intro h
    rw [pitch_of_orbit _ _ _ hlo.le hhi.le hlt.le, newPitch]
    exact rustClamp_of_gt _ _ _ hlt.le h
  · intro h
    rw [pitch_of_orbit _ _ _ hlo.le hhi.le hlt.le, newPitch]
    exact rustClamp_of_lt _ _ _ h

/-- Witness for C2 at the concrete example settings with the empty input
sequence. -/
theorem orbit_pitch_clamp_invariant_witness :
    (-(Real.pi / 2) < cs0.pitch_range.start ∧ cs0.pitch_range.«end» < Real.pi / 2 ∧
      cs0.pitch_range.start < cs0.pitch_range.«end») ∧
    cs0.pitch_range.start ≤
      (orbit (List.foldl (fun t i => orbit t cs0 i) tf0 []) cs0 input0).rotation.toEulerYXZ.2.1 :=
  ⟨⟨by simp only [cs0]; have := Real.pi_gt_d6; linarith,
    by simp only [cs0]; have := Real.pi_gt_d6; linarith,
    by norm_num [cs0]⟩,
   (orbit_pitch_clamp_invariant cs0
      (by simp only [cs0]; have := Real.pi_gt_d6; linarith)
      (by simp only [cs0]; have := Real.pi_gt_d6; linarith)
      (by norm_num [cs0]) tf0 [] input0).1.1⟩

/-- C3 counterexample: zero input does NOT leave every starting pose
unchanged.  A pose at the target itself (position (0,0,0), identity
orientation) is moved to (0,0,20) by a zero-input tick, because `orbit`
always rewrites the position to `target - forward * orbit_distance`. -/
theorem orbit_zero_input_counterexample : orbit tf0 cs0 input0 ≠ tf0 := by
  have he : tf0.rotation.toEulerYXZ = (0, 0, 0) := toEulerYXZ_identity
  have h1 : newYaw tf0 cs0 input0 = 0 := by
    rw [newYaw, he]
    norm_num [input0]
  have h2 : newPitch tf0 cs0 input0 = 0 := by
    have hx : tf0.rotation.toEulerYXZ.2.1 + input0.delta.y * cs0.pitch_speed = 0 := by
      rw [he]
      norm_num [input0]
    rw [newPitch, hx]
    exact rustClamp_of_mem 0 _ _ (by norm_num [cs0]) (by norm_num [cs0])
  have h3 : newRoll tf0 cs0 input0 = 0 := by
    rw [newRoll, he]
    norm_num [delta_roll, deltaRollDirection, input0]
  have heval : orbit tf0 cs0 input0 = ⟨⟨0, 0, 20⟩, ⟨0, 0, 0, 1⟩⟩ := by
    rw [orbit_eq, newRotation, h1, h2, h3, fromEulerYXZ_zero, forward_identity]
    simp [target, Vec3.zero, Vec3.sub, Vec3.smul, cs0]
  intro h
  rw [heval] at h
  have := congrArg (fun t => t.translation.z) h
  norm_num [tf0] at this

/-- C3 as amended: zero input (dx = dy = 0, no roll trigger, any elapsed
time) leaves the pose unchanged, provided the starting pose satisfies the
pose invariants of the data model: the orientation is the Y-X-Z recomposition
of angles with yaw and roll in (-π, π] and pitch inside the (valid) pitch
range, and the position already equals `target - forward * orbit_distance`. -/
theorem orbit_zero_input_fixpoint (cs : CameraSettings) (tf : Transform) (y p r t : ℝ)
    (hlo : -(Real.pi / 2) < cs.pitch_range.start)
    (hhi : cs.pitch_range.«end» < Real.pi / 2)
    (hy1 : -Real.pi < y) (hy2 : y ≤ Real.pi)
    (hr1 : -Real.pi < r) (hr2 : r ≤ Real.pi)
    (hp1 : cs.pitch_range.start ≤ p) (hp2 : p ≤ cs.pitch_range.«end»)
    (hrot : tf.rotation = Quat.fromEulerYXZ y p r)
    (hpos : tf.translation = target.sub (Vec3.smul cs.orbit_distance (forward tf.rotation))) :
    orbit tf cs ⟨⟨0, 0⟩, false, false, t⟩ = tf := by
  obtain ⟨pos, rot⟩ := tf
  simp only at hrot hpos
  subst hrot
  subst hpos
  have he : (Quat.fromEulerYXZ y p r).toEulerYXZ = (y, p, r) :=
    toEulerYXZ_fromEulerYXZ y p r ⟨hy1, hy2⟩ ⟨hr1, hr2⟩ ⟨by linarith, by linarith⟩
  have h1 : newYaw ⟨target.sub (Vec3.smul cs.orbit_distance
      (forward (Quat.fromEulerYXZ y p r))), Quat.fromEulerYXZ y p r⟩ cs
      ⟨⟨0, 0⟩, false, false, t⟩ = y := by
    rw [newYaw]
    simp [he]
  have h2 : newPitch ⟨target.sub (Vec3.smul cs.orbit_distance
      (forward (Quat.fromEulerYXZ y p r))), Quat.fromEulerYXZ y p r⟩ cs
      ⟨⟨0, 0⟩, false, false, t⟩ = p := by
    rw [newPitch]
    have hx : (Quat.fromEulerYXZ y p r).toEulerYXZ.2.1 + (0 : ℝ) * cs.pitch_speed = p := by
      simp [he]
    rw [show ((⟨target.sub (Vec3.smul cs.orbit_distance
        (forward (Quat.fromEulerYXZ y p r))), Quat.fromEulerYXZ y p r⟩ :
        Transform)).rotation = Quat.fromEulerYXZ y p r from rfl]
    rw [show ((⟨⟨0, 0⟩, false, false, t⟩ : FrameInput)).delta.y = (0 : ℝ) from rfl, hx]
    exact rustClamp_of_mem p _ _ hp1 hp2
  have h3 : newRoll ⟨target.sub (Vec3.smul cs.orbit_distance
      (forward (Quat.fromEulerYXZ y p r))), Quat.fromEulerYXZ y p r⟩ cs
      ⟨⟨0, 0⟩, false, false, t⟩ = r := by
    rw [newRoll]
    simp [he, delta_roll, deltaRollDirection]
  have hR : newRotation ⟨target.sub (Vec3.smul cs.orbit_distance
      (forward (Quat.fromEulerYXZ y p r))), Quat.fromEulerYXZ y p r⟩ cs
      ⟨⟨0, 0⟩, false, false, t⟩ = Quat.fromEulerYXZ y p r := by
    rw [newRotation, h1, h2, h3]
  rw [orbit_eq, hR]

/-- Witness for C3's amended theorem at the concrete example settings and the
canonical pose with yaw = pitch = roll = 0. -/
theorem orbit_zero_input_fixpoint_witness :
    orbit ⟨target.sub (Vec3.smul cs0.orbit_distance (forward (Quat.fromEulerYXZ 0 0 0))),
        Quat.fromEulerYXZ 0 0 0⟩ cs0 ⟨⟨0, 0⟩, false, false, 1⟩ =
      ⟨target.sub (Vec3.smul cs0.orbit_distance (forward (Quat.fromEulerYXZ 0 0 0))),
        Quat.fromEulerYXZ 0 0 0⟩ :=
  orbit_zero_input_fixpoint cs0
    ⟨target.sub (Vec3.smul cs0.orbit_distance (forward (Quat.fromEulerYXZ 0 0 0))),
      Quat.fromEulerYXZ 0 0 0⟩ 0 0 0 1
    (by simp only [cs0]; have := Real.pi_gt_d6; linarith)
    (by simp only [cs0]; have := Real.pi_gt_d6; linarith)
    (by have := Real.pi_pos; linarith) Real.pi_pos.le
    (by have := Real.pi_pos; linarith) Real.pi_pos.le
    (by norm_num [cs0]) (by norm_num [cs0]) rfl rfl

/-- C4: from identity orientation with the concrete settings
(`orbit_distance = 20`, `pitch_speed = 0.003`, `yaw_speed = 0.004`,
`pitch_range = (-1.5608, 1.5608)`) and input `dx = 100, dy = 0`, no roll
trigger, `elapsed = 0.016`, the returned pose's decomposed yaw is 0.4 (an
increase of 0.4 over the starting yaw 0), pitch and roll stay 0, and the
position is recomputed at radius 20 from the origin along the new forward
direction. -/
theorem orbit_concrete_scenario :
    tf0.rotation.toEulerYXZ = (0, 0, 0) ∧
    (orbit tf0 cs0 input4).rotation = Quat.fromEulerYXZ 0.4 0 0 ∧
    (orbit tf0 cs0 input4).rotation.toEulerYXZ = (0.4, 0, 0) ∧
    (orbit tf0 cs0 input4).translation =
      target.sub (Vec3.smul 20 (forward (orbit tf0 cs0 input4).rotation)) ∧
    ((orbit tf0 cs0 input4).translation.sub target).norm = 20 := by
  have he : tf0.rotation.toEulerYXZ = (0, 0, 0) := toEulerYXZ_identity
  have h1 : newYaw tf0 cs0 input4 = 0.4 := by
    rw [newYaw, he]
    norm_num [input4, cs0]
  have h2 : newPitch tf0 cs0 input4 = 0 := by
    have hx : tf0.rotation.toEulerYXZ.2.1 + input4.delta.y * cs0.pitch_speed = 0 := by
      rw [he]
      norm_num [input4]
    rw [newPitch, hx]
    exact rustClamp_of_mem 0 _ _ (by norm_num [cs0]) (by norm_num [cs0])
  have h3 : newRoll tf0 cs0 input4 = 0 := by
    rw [newRoll, he]
    norm_num [delta_roll, deltaRollDirection, input4]
  have hR : (orbit tf0 cs0 input4).rotation = Quat.fromEulerYXZ 0.4 0 0 := by
    rw [orbit_eq]
    show newRotation tf0 cs0 input4 = _
    rw [newRotation, h1, h2, h3]
  refine ⟨he, hR, ?_, ?_, ?_⟩
  · rw [hR]
    refine toEulerYXZ_fromEulerYXZ 0.4 0 0 ⟨?_, ?_⟩ ⟨?_, ?_⟩ ⟨?_, ?_⟩ <;>
      have h3p := Real.pi_gt_three <;> linarith
  · rw [orbit_eq]
    show target.sub (Vec3.smul cs0.orbit_distance (forward (newRotation tf0 cs0 input4))) =
      target.sub (Vec3.smul 20 (forward (newRotation tf0 cs0 input4)))
    norm_num [cs0]
  · rw [orbit_eq]
    show ((target.sub (Vec3.smul cs0.orbit_distance
        (forward (newRotation tf0 cs0 input4)))).sub target).norm = 20
    rw [norm_sub_target cs0.orbit_distance (by norm_num [cs0]) _
      (forward_dot _ (normSq_newRotation tf0 cs0 input4))]
    norm_num [cs0]

theorem writeFile_not_mem_exampleEffects (a : Args) (ex name c : String) :
    Effect.writeFile name c ∉ exampleEffects a ex := by
  cases ho : a.optimize_size <;> cases ht : a.test <;>
    simp [exampleEffects, ho, ht]

/-- C10 counterexample: an invocation with `--frames 5` and no examples
panics at the assertion on line 51 before creating ci_testing_config.ron, so
it is not the case that every invocation carrying `--frames` writes the
file. -/
theorem mainTrace_frames_counterexample :
    args0.frames = some 5 ∧ mainTrace args0 = none := ⟨rfl, rfl⟩

/-- C10 as amended: in every invocation that passes the non-empty-examples
assertion, giving `--frames N` makes the tool write ci_testing_config.ron
with content exactly `(events: [(N, AppExit)])` before any build effect, and
append "bevy_ci_testing" to the cargo feature list; with `--frames` absent no
file is written (the trace has no write effect) and the feature list is left
as passed. -/
theorem mainTrace_frames_behavior (a : Args) :
    (∀ n, a.frames = some n →
      preBuildWrites a = [Effect.writeFile "ci_testing_config.ron" (ciTestingContent n)] ∧
      ciFeatures a = a.features ++ ["bevy_ci_testing"] ∧
      (a.examples ≠ [] →
        mainTrace a = some (Effect.writeFile "ci_testing_config.ron" (ciTestingContent n) ::
          a.examples.flatMap (exampleEffects a)))) ∧
    (a.frames = none →
      preBuildWrites a = [] ∧ ciFeatures a = a.features ∧
      ∀ name c, Effect.writeFile name c ∉ (mainTrace a).getD []) := by
  constructor
  · intro n hn
    refine ⟨by simp [preBuildWrites, hn], by simp [ciFeatures, hn], ?_⟩
    intro hne
    have hie : a.examples.isEmpty = false := by
      simpa [List.isEmpty_iff] using hne
    simp [mainTrace, hie, preBuildWrites, hn]
  · intro hn
    refine ⟨by simp [preBuildWrites, hn], by simp [ciFeatures, hn], ?_⟩
    intro name c
    by_cases he : a.examples.isEmpty
    · simp [mainTrace, he]
    · simp only [mainTrace, he, if_false, Bool.false_eq_true, preBuildWrites, hn,
        List.nil_append, Option.getD_some]
      intro hmem
      obtain ⟨ex, _, hex⟩ := List.mem_flatMap.mp hmem
      exact writeFile_not_mem_exampleEffects a ex name c hex

/-- Witness for C10's amended theorem at a concrete valid invocation with
`--frames 3` and one example. -/
theorem mainTrace_frames_behavior_witness :
    preBuildWrites argsW = [Effect.writeFile "ci_testing_config.ron" (ciTestingContent 3)] ∧
    mainTrace argsW = some (Effect.writeFile "ci_testing_config.ron" (ciTestingContent 3) ::
      argsW.examples.flatMap (exampleEffects argsW)) :=
  ⟨((mainTrace_frames_behavior argsW).1 3 rfl).1,
   ((mainTrace_frames_behavior argsW).1 3 rfl).2.2 (by simp [argsW])⟩

end OrbitCam
